import Mathlib

set_option maxRecDepth 40000

/-!
Verification of the blinkt driver (Pimoroni Blinkt! / APA102 / SK9822 LED
driver, Rust crate) against its natural-language specification.

The development shallowly embeds the two source files that carry the logic:

* src/pixel.rs   - the packed 4-byte pixel record and its setters;
* src/lib.rs     - the frame encoder (Blinkt), the GPIO bit-bang transport
                   and the drop/teardown policy.

The source uses f32 arithmetic in two places: Pixel::set_brightness
(pixel.rs line 129) and the end-frame length computed in
Blinkt::with_settings (lib.rs line 332).  Every finite nonnegative IEEE
binary32 value is an integer multiple of 2^(-149), so those computations are
embedded exactly over natural numbers scaled by 2^149: the natural number v
stands for the real value v * 2^(-149).  The IEEE operations used by the
source (u64 to f32 cast, division by 16, addition, multiplication) all
produce the exact result rounded to nearest, ties to even, which is the
function rnd below.
-/

namespace BlinktModel

/-- Base-2 logarithm of a natural number, fuel-based so that it is
structurally recursive (and hence kernel-reducible).  For 1 <= v < 2^fuel it
returns the unique l with 2^l <= v < 2^(l+1). -/
def lg2F : ℕ → ℕ → ℕ
  | 0, _ => 0
  | fuel+1, v => if v ≤ 1 then 0 else lg2F fuel (v / 2) + 1

/-- Base-2 logarithm with enough fuel for every value appearing in this
development (all values are below 2^400). -/
def lg2 (v : ℕ) : ℕ := lg2F 400 v

/-- The unit in the last place of the binary32 value v * 2^(-149), expressed
at scale 2^(-149).  For a normal value (lg2 v >= 23, i.e. value >= 2^(-126))
this is 2^(lg2 v - 23); for a subnormal value the truncated subtraction
yields 2^0 = 1, i.e. 2^(-149), the subnormal grid. -/
def ulpS (v : ℕ) : ℕ := 2 ^ (lg2 v - 23)

/-- Round v to the nearest multiple of u, ties to even (on the multiplier),
IEEE round-to-nearest-even at grid width u. -/
def rhe (v u : ℕ) : ℕ :=
  if 2 * (v % u) < u then (v / u) * u
  else if u < 2 * (v % u) then (v / u + 1) * u
  else if (v / u) % 2 = 0 then (v / u) * u else (v / u + 1) * u

/-- IEEE binary32 round-to-nearest-even of the nonnegative value
v * 2^(-149), at scale 2^(-149). -/
def rnd (v : ℕ) : ℕ := rhe v (ulpS v)

/-!
Pixel (src/pixel.rs).  The source stores `value: [u8; 4]` indexed by
IDX_BRIGHTNESS = 0, IDX_BLUE = 1, IDX_GREEN = 2, IDX_RED = 3; the four array
slots are embedded as four named byte fields in that order, and
Pixel.bytes reassembles the array.  Byte fields hold u8 values as plain
naturals.  The f32 brightness argument is passed in the scaled
representation: the integer x stands for the f32 value x * 2^(-149)
(every finite f32 is such a multiple).
-/

structure Pixel where
  brightnessByte : ℕ
  blueByte : ℕ
  greenByte : ℕ
  redByte : ℕ
deriving DecidableEq

/-- Rust clamp `brightness.max(0.0).min(1.0)` on the scaled f32 value
(max and min on f32 values with these arguments are exact, no rounding);
result is the scaled value of the clamped f32, a natural in [0, 2^149]. -/
def clampS (x : ℤ) : ℕ := (min ((2 : ℤ) ^ 149) (max 0 x)).toNat

/-- The low byte computed by `(31.0 * brightness.max(0.0).min(1.0)) as u8`
(pixel.rs line 129): the f32 product 31.0 * clamped (exact product rounded
to nearest, ties to even), truncated toward zero with Rust saturating
float-to-int cast semantics (the min 255 never bites: the value is at
most 31). -/
def brightness5 (x : ℤ) : ℕ := min 255 (rnd (31 * clampS x) / 2 ^ 149)

/-- Pixel::set_rgb (pixel.rs lines 49-53). -/
def Pixel.set_rgb (p : Pixel) (red green blue : ℕ) : Pixel :=
  { p with redByte := red, greenByte := green, blueByte := blue }

/-- Pixel::set_brightness (pixel.rs lines 128-130):
`value[IDX_BRIGHTNESS] = 0b11100000 | ((31.0 * brightness.max(0.0).min(1.0)) as u8)`. -/
def Pixel.set_brightness (p : Pixel) (x : ℤ) : Pixel :=
  { p with brightnessByte := 0b11100000 ||| brightness5 x }

/-- Pixel::set_rgbb (pixel.rs lines 71-74): set_rgb then set_brightness. -/
def Pixel.set_rgbb (p : Pixel) (red green blue : ℕ) (x : ℤ) : Pixel :=
  (p.set_rgb red green blue).set_brightness x

/-- Pixel::set_red (pixel.rs lines 86-88). -/
def Pixel.set_red (p : Pixel) (red : ℕ) : Pixel := { p with redByte := red }

/-- Pixel::set_green (pixel.rs lines 100-102). -/
def Pixel.set_green (p : Pixel) (green : ℕ) : Pixel := { p with greenByte := green }

/-- Pixel::set_blue (pixel.rs lines 114-116). -/
def Pixel.set_blue (p : Pixel) (blue : ℕ) : Pixel := { p with blueByte := blue }

/-- Pixel::clear (pixel.rs lines 134-136): set_rgb(0, 0, 0). -/
def Pixel.clear (p : Pixel) : Pixel := p.set_rgb 0 0 0

/-- Pixel::bytes (pixel.rs lines 139-141): the stored 4-byte array
[brightness, blue, green, red] (the IDX_* order). -/
def Pixel.bytes (p : Pixel) : List ℕ :=
  [p.brightnessByte, p.blueByte, p.greenByte, p.redByte]

/-- Pixel::default (pixel.rs lines 144-150):
value = [0b11100000 | DEFAULT_BRIGHTNESS, 0, 0, 0] with DEFAULT_BRIGHTNESS = 7. -/
def Pixel.default : Pixel := ⟨0b11100000 ||| 7, 0, 0, 0⟩

/-!
GPIO bit-bang transport (src/lib.rs).  BlinktGpio owns a data pin and a
clock pin; its SerialOutput::write implementation (lib.rs lines 242-259)
emits, for each byte and for n in 0..8, the pin operations: set the data
pin high when `(byte & (1 << (7 - n))) > 0` and low otherwise, then set the
clock pin high, then low.  The rppal pin setters are infallible and the
function ends with `Ok(())`.  The embedding records the emitted pin
operations as a trace.
-/

inductive PinOp where
  | dataPin : Bool → PinOp
  | clockPin : Bool → PinOp
deriving DecidableEq

/-- The pin operations emitted for a single byte by
`<BlinktGpio as SerialOutput>::write` (lib.rs lines 244-255). -/
def bitbangByte (byte : ℕ) : List PinOp :=
  (List.range 8).flatMap fun n =>
    [PinOp.dataPin (decide (0 < byte &&& (1 <<< (7 - n)))),
     PinOp.clockPin true, PinOp.clockPin false]

/-- The full pin trace of one GPIO transport write call. -/
def gpioWriteTrace (data : List ℕ) : List PinOp := data.flatMap bitbangByte

/-- `<BlinktGpio as SerialOutput>::write` (lib.rs lines 243-258): the pin
trace it emits together with its return value, which is always `Ok(())`. -/
def gpioWrite (data : List ℕ) : List PinOp × Except Unit Unit :=
  (gpioWriteTrace data, Except.ok ())

/-!
Blinkt (src/lib.rs): pixel buffer, clear_on_drop flag and precomputed
end frame.  The boxed serial output is not part of the state here; the
operations that talk to it are parameterized by a write function
`w : List Nat -> Except E Unit` (the SerialOutput trait, lib.rs
lines 216-218).
-/

structure Blinkt where
  pixels : List Pixel
  clear_on_drop : Bool
  end_frame : List ℕ
deriving DecidableEq

/-- The end-frame byte count beyond the constant 4, as computed in
Blinkt::with_settings and Blinkt::with_spi (lib.rs lines 332 and 353):
`((num_pixels as f32 / 16.0f32) + 0.94f32) as usize`, embedded with exact
f32 semantics: round the pixel count to f32, divide by 16 (the quotient of
the scaled values is always exact since the rounded count is a multiple of
its ulp, which is at least 16 grid units for any nonzero count), round,
add the f32 constant 0.94 (whose value is 15770583 * 2^(-24)), round, then
truncate toward zero (`as usize`, which never saturates here). -/
def endFrameCount (n : ℕ) : ℕ :=
  rnd (rnd (rnd (n * 2 ^ 149) / 16) + 15770583 * 2 ^ 125) / 2 ^ 149

/-- Blinkt::with_settings (lib.rs lines 327-334), the state after a
successful GPIO acquisition: `num_pixels` default pixels, clear_on_drop
true, and the all-zero end frame of `4 + endFrameCount num_pixels` bytes
(`vec![0u8; 4 + (((num_pixels as f32 / 16.0f32) + 0.94f32) as usize)]`).
Blinkt::with_spi (lib.rs lines 348-355) builds the same state. -/
def Blinkt.with_settings (num_pixels : ℕ) : Blinkt :=
  { pixels := List.replicate num_pixels Pixel.default
    clear_on_drop := true
    end_frame := List.replicate (4 + endFrameCount num_pixels) 0 }

/-- In-place update of one list element, the embedding of
`self.pixels.get_mut(pixel)` followed by a mutation: out-of-range indices
leave the list unchanged (get_mut returns None and the `if let` falls
through). -/
def modifyIdx {α : Type} : List α → ℕ → (α → α) → List α
  | [], _, _ => []
  | a :: as, 0, f => f a :: as
  | a :: as, i + 1, f => a :: modifyIdx as i f

/-- Blinkt::set_pixel (lib.rs lines 369-373). -/
def Blinkt.set_pixel (b : Blinkt) (pixel red green blue : ℕ) : Blinkt :=
  { b with pixels := modifyIdx b.pixels pixel (fun p => p.set_rgb red green blue) }

/-- Blinkt::set_pixel_rgbb (lib.rs lines 381-385). -/
def Blinkt.set_pixel_rgbb (b : Blinkt) (pixel red green blue : ℕ) (x : ℤ) : Blinkt :=
  { b with pixels := modifyIdx b.pixels pixel (fun p => p.set_rgbb red green blue x) }

/-- Blinkt::set_pixel_brightness (lib.rs lines 391-395). -/
def Blinkt.set_pixel_brightness (b : Blinkt) (pixel : ℕ) (x : ℤ) : Blinkt :=
  { b with pixels := modifyIdx b.pixels pixel (fun p => p.set_brightness x) }

/-- Blinkt::set_all_pixels (lib.rs lines 400-404). -/
def Blinkt.set_all_pixels (b : Blinkt) (red green blue : ℕ) : Blinkt :=
  { b with pixels := b.pixels.map (fun p => p.set_rgb red green blue) }

/-- Blinkt::clear (lib.rs lines 427-429): set_all_pixels(0, 0, 0). -/
def Blinkt.clear (b : Blinkt) : Blinkt := b.set_all_pixels 0 0 0

/-- Blinkt::set_clear_on_drop (lib.rs lines 468-470). -/
def Blinkt.set_clear_on_drop (b : Blinkt) (flag : Bool) : Blinkt :=
  { b with clear_on_drop := flag }

/-- The sequence of transport write calls issued by Blinkt::show (lib.rs
lines 433-450), in order: the 4-zero-byte start frame (`&[0u8; 4]`), one
call per pixel with that pixel's 4 raw bytes, then the precomputed end
frame. -/
def Blinkt.showWrites (b : Blinkt) : List (List ℕ) :=
  [List.replicate 4 0] ++ b.pixels.map Pixel.bytes ++ [b.end_frame]

/-- Sequencing of `?`-chained transport writes: perform the chunks in
order through w, stopping at (and propagating) the first error, then
`Ok(())`. -/
def runWrites {E : Type} (w : List ℕ → Except E Unit) : List (List ℕ) → Except E Unit
  | [] => Except.ok ()
  | c :: cs =>
    match w c with
    | Except.ok _ => runWrites w cs
    | Except.error e => Except.error e

/-- Blinkt::show (lib.rs lines 433-450) run against the transport w. -/
def Blinkt.showRun {E : Type} (w : List ℕ → Except E Unit) (b : Blinkt) : Except E Unit :=
  runWrites w b.showWrites

/-- The transport write calls performed by `<Blinkt as Drop>::drop`
(lib.rs lines 477-482): when clear_on_drop is set, clear() then the
writes of one show(); otherwise nothing. -/
def Blinkt.dropTrace (b : Blinkt) : List (List ℕ) :=
  if b.clear_on_drop then (Blinkt.clear b).showWrites else []

/-- The result of `<Blinkt as Drop>::drop` run against the transport w:
`if self.clear_on_drop { self.clear(); let _ = self.show(); }` - the show
result is discarded (`let _ =`), so drop always completes normally. -/
def Blinkt.dropRun {E : Type} (w : List ℕ → Except E Unit) (b : Blinkt) : Except E Unit :=
  if b.clear_on_drop then
    match Blinkt.showRun w (Blinkt.clear b) with
    | Except.ok _ => Except.ok ()
    | Except.error _ => Except.ok ()
  else Except.ok ()

/-- Total number of bytes handed to the transport by one show(). -/
def totalBytes (ws : List (List ℕ)) : ℕ := (ws.map List.length).sum

/-!
Definitions taken from the specification's words (not from the source),
for the refinement-style claims that compare the code against a formula
stated in the spec.
-/

/-- Modelled from the spec (claim C9): transmit bytes in order, MSB-first
within each byte, each bit as: set data line to the bit value, raise
clock, lower clock. -/
def specBitstream (data : List ℕ) : List PinOp :=
  data.flatMap fun byte =>
    (List.range 8).flatMap fun n =>
      [PinOp.dataPin (byte.testBit (7 - n)), PinOp.clockPin true, PinOp.clockPin false]

/-- Modelled from the spec (claim C4): the exact floor(31 * clamp(x, 0, 1))
of the claim's formula, with no f32 rounding of the product. -/
def specFloor31 (x : ℤ) : ℕ := 31 * clampS x / 2 ^ 149

/-- The top three bits of the stored brightness byte read back as 111. -/
abbrev goodBrightness (p : Pixel) : Prop :=
  p.brightnessByte &&& 0b11100000 = 0b11100000

theorem lg2F_spec : ∀ (fuel v : ℕ), 0 < v → v < 2 ^ fuel →
    2 ^ lg2F fuel v ≤ v ∧ v < 2 ^ (lg2F fuel v + 1)
  | 0, v, hv, hlt => by
    simp only [pow_zero] at hlt
    omega
  | fuel+1, v, hv, hlt => by
    rw [lg2F]
    by_cases h1 : v ≤ 1
    · have hv1 : v = 1 := le_antisymm h1 hv
      subst hv1
      simp
    · simp only [if_neg h1]
      have h2 : 2 ≤ v := by omega
      have hv2 : 0 < v / 2 := Nat.div_pos h2 (by norm_num)
      have hlt2 : v / 2 < 2 ^ fuel := by
        apply Nat.div_lt_of_lt_mul
        calc v < 2 ^ (fuel + 1) := hlt
        _ = 2 * 2 ^ fuel := by ring
      obtain ⟨ih1, ih2⟩ := lg2F_spec fuel (v / 2) hv2 hlt2
      constructor
      · calc 2 ^ (lg2F fuel (v / 2) + 1) = 2 ^ lg2F fuel (v / 2) * 2 := by rw [pow_succ]
        _ ≤ (v / 2) * 2 := Nat.mul_le_mul_right 2 ih1
        _ ≤ v := by omega
      · have h3 : v / 2 + 1 ≤ 2 ^ (lg2F fuel (v / 2) + 1) := ih2
        calc v < (v / 2 + 1) * 2 := by omega
        _ ≤ 2 ^ (lg2F fuel (v / 2) + 1) * 2 := Nat.mul_le_mul_right 2 h3
        _ = 2 ^ (lg2F fuel (v / 2) + 1 + 1) := by ring

theorem lg2_le {v a : ℕ} (ha : a + 1 ≤ 400) (h : v < 2 ^ (a + 1)) : lg2 v ≤ a := by
  rcases Nat.eq_zero_or_pos v with h0 | h0
  · subst h0
    have hz : lg2 0 = 0 := rfl
    rw [hz]
    exact Nat.zero_le a
  · have hlt : v < 2 ^ 400 :=
      lt_of_lt_of_le h (Nat.pow_le_pow_right (by norm_num) ha)
    obtain ⟨h1, _⟩ := lg2F_spec 400 v h0 hlt
    have h2 : 2 ^ lg2 v < 2 ^ (a + 1) := lt_of_le_of_lt h1 h
    have h3 : lg2 v < a + 1 := by
      by_contra hc
      push_neg at hc
      exact absurd (Nat.pow_le_pow_right (by norm_num) hc) (not_le.mpr h2)
    omega

theorem rhe_cases (v u : ℕ) :
    rhe v u = (v / u) * u ∨ rhe v u = (v / u + 1) * u := by
  unfold rhe
  split
  · exact Or.inl rfl
  · split
    · exact Or.inr rfl
    · split
      · exact Or.inl rfl
      · exact Or.inr rfl

theorem rhe_eq_of_dvd {v u : ℕ} (hu : 0 < u) (hd : u ∣ v) : rhe v u = v := by
  obtain ⟨c, rfl⟩ := hd
  have hm : u * c % u = 0 := Nat.mul_mod_right u c
  unfold rhe
  rw [hm]
  rw [if_pos (by omega)]
  exact Nat.div_mul_cancel (Dvd.intro c rfl)

theorem rnd_id_of_lg2_le {v t : ℕ} (hv : lg2 v ≤ 23 + t) (hd : 2 ^ t ∣ v) :
    rnd v = v := by
  apply rhe_eq_of_dvd (pow_pos (by norm_num) _)
  exact dvd_trans (pow_dvd_pow 2 (by omega)) hd

theorem rhe_ge (v u : ℕ) : (v / u) * u ≤ rhe v u := by
  rcases rhe_cases v u with h | h <;> rw [h]
  exact Nat.mul_le_mul_right u (Nat.le_succ _)

theorem le_rhe {v u m : ℕ} (hu : 0 < u) (hm : u ∣ m) (hle : m ≤ v) :
    m ≤ rhe v u := by
  obtain ⟨c, rfl⟩ := hm
  have h1 : c ≤ v / u := (Nat.le_div_iff_mul_le hu).mpr (by rw [mul_comm] at hle; omega)
  calc u * c = c * u := mul_comm u c
  _ ≤ (v / u) * u := Nat.mul_le_mul_right u h1
  _ ≤ rhe v u := rhe_ge v u

theorem rhe_le {v u : ℕ} (hu : 0 < u) : 2 * rhe v u ≤ 2 * v + u := by
  have key : v / u * u + v % u = v := by
    rw [mul_comm]
    exact Nat.div_add_mod v u
  have hexp : (v / u + 1) * u = v / u * u + u := by ring
  unfold rhe
  split_ifs with h1 h2 h3
  · omega
  · rw [hexp]
    omega
  · omega
  · rw [hexp]
    omega

theorem rhe_le_add {v u : ℕ} : rhe v u ≤ v + u := by
  rcases rhe_cases v u with h | h <;> rw [h]
  · exact le_trans (Nat.div_mul_le_self v u) (Nat.le_add_right v u)
  · have : (v / u + 1) * u = v / u * u + u := by ring
    rw [this]
    have := Nat.div_mul_le_self v u
    omega

theorem div_mul_ge_div_mul {v u w : ℕ} (hu : 0 < u) :
    (v / (u * w)) * (u * w) ≤ (v / u) * u := by
  have h1 : (v / (u * w)) * w * u ≤ v := by
    calc (v / (u * w)) * w * u = (v / (u * w)) * (u * w) := by ring
    _ ≤ v := Nat.div_mul_le_self v (u * w)
  have h2 : (v / (u * w)) * w ≤ v / u := (Nat.le_div_iff_mul_le hu).mpr h1
  calc (v / (u * w)) * (u * w) = (v / (u * w)) * w * u := by ring
  _ ≤ (v / u) * u := Nat.mul_le_mul_right u h2

/-- Truncating an f32-rounded nonnegative value to an integer never falls
below truncating the exact value (the integer below the value is itself on
the rounding grid as long as the grid is at least as fine as the integers). -/
theorem le_rnd_div {v : ℕ} (hv : lg2 v ≤ 172) : v / 2 ^ 149 ≤ rnd v / 2 ^ 149 := by
  have hd : ulpS v ∣ 2 ^ 149 := pow_dvd_pow 2 (by omega)
  obtain ⟨w, hw⟩ := hd
  have hupos : 0 < ulpS v := Nat.pos_pow_of_pos _ (by norm_num)
  have h1 : (v / 2 ^ 149) * 2 ^ 149 ≤ (v / ulpS v) * ulpS v := by
    have := div_mul_ge_div_mul (v := v) (w := w) hupos
    rwa [← hw] at this
  have h2 : (v / 2 ^ 149) * 2 ^ 149 ≤ rnd v := le_trans h1 (rhe_ge v (ulpS v))
  calc v / 2 ^ 149 = (v / 2 ^ 149) * 2 ^ 149 / 2 ^ 149 :=
        (Nat.mul_div_cancel _ (by norm_num)).symm
  _ ≤ rnd v / 2 ^ 149 := Nat.div_le_div_right h2

/-- Truncating an f32-rounded nonnegative value to an integer exceeds
truncating the exact value by at most one. -/
theorem rnd_div_le {v : ℕ} (hv : lg2 v ≤ 172) : rnd v / 2 ^ 149 ≤ v / 2 ^ 149 + 1 := by
  have hu : ulpS v ≤ 2 ^ 149 := by
    unfold ulpS
    exact Nat.pow_le_pow_right (by norm_num) (by omega)
  have h1 : rnd v ≤ v + 2 ^ 149 := le_trans rhe_le_add (by omega)
  calc rnd v / 2 ^ 149 ≤ (v + 2 ^ 149) / 2 ^ 149 := Nat.div_le_div_right h1
  _ = v / 2 ^ 149 + 1 := Nat.add_div_right v (by norm_num)

/-!
Arithmetic facts about the embedded f32 computations.
-/

/-- For every pixel count below 2^24, the end-frame length computed through
f32 arithmetic agrees with the ceiling of n/16.  (This fails at n = 2^24:
see the claim C1 counterexample.) -/
theorem endFrameCount_eq {n : ℕ} (h : n < 2 ^ 24) : endFrameCount n = (n + 15) / 16 := by
  have hn : n < 16777216 := lt_of_lt_of_eq h (by norm_num)
  have hcast : rnd (n * 2 ^ 149) = n * 2 ^ 149 := by
    have hlt : n * 2 ^ 149 < 2 ^ 173 := by
      calc n * 2 ^ 149 < 2 ^ 24 * 2 ^ 149 :=
            mul_lt_mul_of_pos_right h (pow_pos (by norm_num) _)
      _ = 2 ^ 173 := by rw [← pow_add]
    have h1 : lg2 (n * 2 ^ 149) ≤ 172 := lg2_le (a := 172) (by norm_num) hlt
    exact rnd_id_of_lg2_le (t := 149) (by omega) (dvd_mul_left _ _)
  have hdiv : n * 2 ^ 149 / 16 = n * 2 ^ 145 := by
    rw [show (2 : ℕ) ^ 149 = 2 ^ 145 * 16 from by norm_num, ← mul_assoc]
    exact Nat.mul_div_cancel _ (by norm_num)
  have hmid : rnd (n * 2 ^ 145) = n * 2 ^ 145 := by
    have hlt : n * 2 ^ 145 < 2 ^ 169 := by
      calc n * 2 ^ 145 < 2 ^ 24 * 2 ^ 145 :=
            mul_lt_mul_of_pos_right h (pow_pos (by norm_num) _)
      _ = 2 ^ 169 := by rw [← pow_add]
    have h1 : lg2 (n * 2 ^ 145) ≤ 168 := lg2_le (a := 168) (by norm_num) hlt
    exact rnd_id_of_lg2_le (t := 145) (by omega) (dvd_mul_left _ _)
  unfold endFrameCount
  rw [hcast, hdiv, hmid]
  have hs170 : n * 2 ^ 145 + 15770583 * 2 ^ 125 < 2 ^ 170 := by
    have h1 : n * 2 ^ 145 < 2 ^ 169 := by
      calc n * 2 ^ 145 < 2 ^ 24 * 2 ^ 145 :=
            mul_lt_mul_of_pos_right h (pow_pos (by norm_num) _)
      _ = 2 ^ 169 := by rw [← pow_add]
    have h2 : (15770583 : ℕ) * 2 ^ 125 < 2 ^ 149 := by norm_num
    have h3 : (2 : ℕ) ^ 169 + 2 ^ 149 ≤ 2 ^ 170 := by norm_num
    omega
  have hlg : lg2 (n * 2 ^ 145 + 15770583 * 2 ^ 125) ≤ 169 :=
    lg2_le (a := 169) (by norm_num) hs170
  have hupos : 0 < ulpS (n * 2 ^ 145 + 15770583 * 2 ^ 125) := pow_pos (by norm_num) _
  have hudvd : ulpS (n * 2 ^ 145 + 15770583 * 2 ^ 125) ∣ 2 ^ 146 :=
    pow_dvd_pow 2 (by omega)
  have hule : ulpS (n * 2 ^ 145 + 15770583 * 2 ^ 125) ≤ 2 ^ 146 :=
    Nat.le_of_dvd (by positivity) hudvd
  have hMdvd : ulpS (n * 2 ^ 145 + 15770583 * 2 ^ 125) ∣ ((n + 15) / 16) * 2 ^ 149 :=
    dvd_trans (dvd_trans hudvd (pow_dvd_pow 2 (by norm_num))) (dvd_mul_left _ _)
  have hMle : ((n + 15) / 16) * 2 ^ 149 ≤ n * 2 ^ 145 + 15770583 * 2 ^ 125 := by
    norm_num
    omega
  have hlow := le_rhe hupos hMdvd hMle
  have hup := rhe_le (v := n * 2 ^ 145 + 15770583 * 2 ^ 125) hupos
  have hhigh : rhe (n * 2 ^ 145 + 15770583 * 2 ^ 125)
      (ulpS (n * 2 ^ 145 + 15770583 * 2 ^ 125)) < ((n + 15) / 16 + 1) * 2 ^ 149 := by
    rcases Nat.eq_zero_or_pos (n % 16) with hj | hj
    · have h169 : n * 2 ^ 145 + 15770583 * 2 ^ 125 < 2 ^ 169 := by
        norm_num
        omega
      have hlg2 : lg2 (n * 2 ^ 145 + 15770583 * 2 ^ 125) ≤ 168 :=
        lg2_le (a := 168) (by norm_num) h169
      have hule2 : ulpS (n * 2 ^ 145 + 15770583 * 2 ^ 125) ≤ 2 ^ 145 :=
        Nat.le_of_dvd (by positivity) (pow_dvd_pow 2 (by omega))
      norm_num at hup hule2 ⊢
      omega
    · norm_num at hup hule ⊢
      omega
  unfold rnd
  exact Nat.div_eq_of_lt_le hlow hhigh

theorem clampS_le (x : ℤ) : clampS x ≤ 2 ^ 149 := by
  unfold clampS
  exact Int.toNat_le.mpr (by push_cast; exact min_le_left _ _)

/-- The 5-bit brightness value actually stored never misses the exact
floor(31 * clamp(x, 0, 1)) of the spec by more than one, and stays within
the 5-bit range. -/
theorem brightness5_bounds (x : ℤ) :
    specFloor31 x ≤ brightness5 x ∧ brightness5 x ≤ specFloor31 x + 1 ∧
      brightness5 x ≤ 31 := by
  have hc : clampS x ≤ 2 ^ 149 := clampS_le x
  have hv : 31 * clampS x ≤ 31 * 2 ^ 149 := Nat.mul_le_mul_left 31 hc
  have hvlt : 31 * clampS x < 2 ^ 173 := by
    calc 31 * clampS x ≤ 31 * 2 ^ 149 := hv
    _ < 2 ^ 173 := by norm_num
  have hlg : lg2 (31 * clampS x) ≤ 172 := lg2_le (a := 172) (by norm_num) hvlt
  have h1 := le_rnd_div hlg
  have h2 := rnd_div_le hlg
  have hfl : 31 * clampS x / 2 ^ 149 ≤ 31 := by
    have h3 := Nat.div_le_div_right (c := 2 ^ 149) hv
    rwa [Nat.mul_div_cancel _ (pow_pos (by norm_num) _)] at h3
  unfold brightness5 specFloor31
  refine ⟨?_, ?_, ?_⟩
  · exact le_min (le_trans hfl (by norm_num)) h1
  · exact le_trans (min_le_right _ _) h2
  · rcases eq_or_lt_of_le hc with he | hlt
    · rw [he]
      have hr : rnd (31 * 2 ^ 149) = 31 * 2 ^ 149 := by
        have h4 : lg2 (31 * 2 ^ 149) ≤ 153 := lg2_le (a := 153) (by norm_num) (by norm_num)
        exact rnd_id_of_lg2_le (t := 149) (by omega) (dvd_mul_left _ _)
      rw [hr, Nat.mul_div_cancel _ (pow_pos (by norm_num) _)]
      norm_num
    · have h31 : 31 * clampS x / 2 ^ 149 < 31 :=
        (Nat.div_lt_iff_lt_mul (pow_pos (by norm_num) _)).mpr
          (by calc 31 * clampS x < 31 * 2 ^ 149 := mul_lt_mul_of_pos_left hlt (by norm_num)
              _ = 31 * 2 ^ 149 := rfl)
      exact le_trans (min_le_right _ _) (le_trans h2 (by omega))

/-!
List helpers used by the claims about Blinkt.
-/

theorem modifyIdx_ge {α : Type} :
    ∀ (l : List α) (i : ℕ) (f : α → α), l.length ≤ i → modifyIdx l i f = l
  | [], _, _, _ => rfl
  | a :: as, 0, f, h => absurd h (by simp)
  | a :: as, i + 1, f, h => by
    rw [modifyIdx]
    rw [modifyIdx_ge as i f (by simp at h; omega)]

theorem bytesLenSum :
    ∀ l : List Pixel, (l.map (fun p => (Pixel.bytes p).length)).sum = 4 * l.length
  | [] => rfl
  | p :: ps => by
    rw [List.map_cons, List.sum_cons, bytesLenSum ps]
    simp [Pixel.bytes]
    ring

theorem runWrites_ok {E : Type} (w : List ℕ → Except E Unit)
    (hw : ∀ c, w c = Except.ok ()) :
    ∀ l : List (List ℕ), runWrites w l = Except.ok ()
  | [] => rfl
  | c :: cs => by
    rw [runWrites, hw c]
    exact runWrites_ok w hw cs

theorem and_pow_pos_eq_testBit (byte k : ℕ) :
    decide (0 < byte &&& (1 <<< k)) = byte.testBit k := by
  cases h : byte.testBit k
  · simp [Nat.shiftLeft_eq, Nat.and_two_pow, h]
  · simp [Nat.shiftLeft_eq, Nat.and_two_pow, h,
      pow_pos (show (0 : ℕ) < 2 by norm_num) k]

theorem map_brightness_set_rgb (r g bl : ℕ) :
    ∀ l : List Pixel,
      (l.map (fun p => p.set_rgb r g bl)).map Pixel.brightnessByte =
        l.map Pixel.brightnessByte
  | [] => rfl
  | p :: ps => by
    simp [map_brightness_set_rgb r g bl ps, Pixel.set_rgb, Pixel.brightnessByte]

theorem orMask : ∀ m < 32, (0b11100000 ||| m) &&& 0b11100000 = 0b11100000 := by
  decide

/-!
The claims.
-/

/-- Claim C2 (amended): one call to show() issues exactly n + 2 transport
write calls: one for the start frame, one per pixel (its 4 raw bytes), and
one for the end frame.  (The claim's count of exactly three write calls is
wrong: the LED frames are written pixel by pixel, lib.rs lines 438-440.) -/
theorem claim_c2_amended (b : Blinkt) :
    b.showWrites.length = b.pixels.length + 2 ∧
    b.showWrites = [List.replicate 4 0] ++ b.pixels.map Pixel.bytes ++ [b.end_frame] := by
  constructor
  · show ([List.replicate 4 0] ++ b.pixels.map Pixel.bytes ++ [b.end_frame]).length =
      b.pixels.length + 2
    simp [List.length_append, List.length_map]
  · rfl

/-- Claim C2 counterexample: with the default 8 pixels, one show() issues
10 transport write calls, not 3. -/
theorem claim_c2_counterexample :
    (Blinkt.with_settings 8).showWrites.length = 10 ∧
    ¬ ((Blinkt.with_settings 8).showWrites.length = 3) := by
  refine ⟨by decide, by decide⟩

/-- Claim C3: the 4 bytes emitted on the wire for pixel i (write call i+1
of show()) are its stored bytes in [brightness-header, blue, green, red]
order, and a pixel set to red 0xAA, green 0xBB, blue 0xCC, brightness 1.0
encodes as [0xFF, 0xCC, 0xBB, 0xAA]. -/
theorem claim_c3 (b : Blinkt) (i : ℕ) (h : i < b.pixels.length) (p : Pixel) :
    b.showWrites[i + 1]? = some (b.pixels.get ⟨i, h⟩).bytes ∧
    (b.pixels.get ⟨i, h⟩).bytes =
      [(b.pixels.get ⟨i, h⟩).brightnessByte, (b.pixels.get ⟨i, h⟩).blueByte,
       (b.pixels.get ⟨i, h⟩).greenByte, (b.pixels.get ⟨i, h⟩).redByte] ∧
    (p.set_rgbb 0xAA 0xBB 0xCC (2 ^ 149)).bytes = [0xFF, 0xCC, 0xBB, 0xAA] := by
  refine ⟨?_, rfl, ?_⟩
  · show (([List.replicate 4 0] ++ b.pixels.map Pixel.bytes) ++ [b.end_frame])[i + 1]? = _
    rw [List.singleton_append, List.cons_append, List.getElem?_cons_succ,
      List.getElem?_append_left (by simpa using h), List.getElem?_map,
      List.getElem?_eq_getElem h]
    rfl
  · rfl

/-- Claim C3 witness at a concrete two-pixel Blinkt and index 0. -/
theorem claim_c3_witness :
    0 < (Blinkt.with_settings 2).pixels.length ∧
    ((Blinkt.with_settings 2).showWrites[0 + 1]? =
        some ((Blinkt.with_settings 2).pixels.get ⟨0, by decide⟩).bytes ∧
      ((Blinkt.with_settings 2).pixels.get ⟨0, by decide⟩).bytes =
        [((Blinkt.with_settings 2).pixels.get ⟨0, by decide⟩).brightnessByte,
         ((Blinkt.with_settings 2).pixels.get ⟨0, by decide⟩).blueByte,
         ((Blinkt.with_settings 2).pixels.get ⟨0, by decide⟩).greenByte,
         ((Blinkt.with_settings 2).pixels.get ⟨0, by decide⟩).redByte] ∧
      (Pixel.default.set_rgbb 0xAA 0xBB 0xCC (2 ^ 149)).bytes =
        [0xFF, 0xCC, 0xBB, 0xAA]) :=
  ⟨by decide, claim_c3 (Blinkt.with_settings 2) 0 (by decide) Pixel.default⟩

/-- Claim C4 (amended): set_brightness stores
0b111_00000 | trunc(f32round(31.0 * clamp(x, 0, 1))) - the f32 product
rounded to nearest, ties to even, then truncated - which can exceed the
claim's floor(31 * clamp(x, 0, 1)) by one (and never by more); the
clamping identities set_brightness(-1.0) = set_brightness(0.0) and
set_brightness(2.0) = set_brightness(1.0) do hold. -/
theorem claim_c4_amended (p : Pixel) (x : ℤ) :
    (p.set_brightness x).brightnessByte = 0b11100000 ||| brightness5 x ∧
    specFloor31 x ≤ brightness5 x ∧
    brightness5 x ≤ specFloor31 x + 1 ∧
    brightness5 x ≤ 31 ∧
    p.set_brightness (-(2 ^ 149)) = p.set_brightness 0 ∧
    p.set_brightness (2 * 2 ^ 149) = p.set_brightness (2 ^ 149) := by
  obtain ⟨h1, h2, h3⟩ := brightness5_bounds x
  refine ⟨rfl, h1, h2, h3, ?_, ?_⟩
  · unfold Pixel.set_brightness brightness5
    rw [show clampS (-(2 ^ 149)) = clampS 0 from by decide]
  · unfold Pixel.set_brightness brightness5
    rw [show clampS (2 * 2 ^ 149) = clampS (2 ^ 149) from by decide]

/-- Claim C4 counterexample: x = 8659208 * 2^(-28) is an exact f32 value
(first conjunct); 31 * x = 0.99999997... so the claim's byte is
0b111_00000 | 0 = 0xE0, but the f32 product rounds up to exactly 1.0, so
the code stores 0b111_00000 | 1 = 0xE1. -/
theorem claim_c4_counterexample :
    rnd (8659208 * 2 ^ 121) = 8659208 * 2 ^ 121 ∧
    (Pixel.default.set_brightness (8659208 * 2 ^ 121)).brightnessByte = 0xE1 ∧
    0b11100000 ||| specFloor31 (8659208 * 2 ^ 121) = 0xE0 ∧
    (0xE1 : ℕ) ≠ 0xE0 :=
  ⟨by decide, by decide, by decide, by decide⟩

/-- Claim C5: the top 3 bits of the stored brightness byte are 111 for the
default pixel and are preserved by every Pixel operation at every input. -/
theorem claim_c5 (p : Pixel) (r g b : ℕ) (x : ℤ) (h : goodBrightness p) :
    goodBrightness Pixel.default ∧
    goodBrightness (p.set_rgb r g b) ∧
    goodBrightness (p.set_rgbb r g b x) ∧
    goodBrightness (p.set_brightness x) ∧
    goodBrightness (p.set_red r) ∧
    goodBrightness (p.set_green g) ∧
    goodBrightness (p.set_blue b) ∧
    goodBrightness (Pixel.clear p) := by
  have hb := (brightness5_bounds x).2.2
  exact ⟨by decide, h, orMask _ (by omega), orMask _ (by omega), h, h, h, h⟩

/-- Claim C5 witness at the default pixel and concrete arguments. -/
theorem claim_c5_witness :
    goodBrightness Pixel.default ∧
    (goodBrightness Pixel.default ∧
     goodBrightness (Pixel.default.set_rgb 1 2 3) ∧
     goodBrightness (Pixel.default.set_rgbb 1 2 3 0) ∧
     goodBrightness (Pixel.default.set_brightness 0) ∧
     goodBrightness (Pixel.default.set_red 1) ∧
     goodBrightness (Pixel.default.set_green 2) ∧
     goodBrightness (Pixel.default.set_blue 3) ∧
     goodBrightness (Pixel.clear Pixel.default)) :=
  ⟨by decide, claim_c5 Pixel.default 1 2 3 0 (by decide)⟩

/-- Claim C6: out-of-range pixel indices make set_pixel, set_pixel_rgbb and
set_pixel_brightness no-ops: the Blinkt state (in particular every pixel)
is unchanged and no error arises (the operations are total). -/
theorem claim_c6 (b : Blinkt) (i red green blue : ℕ) (x : ℤ)
    (h : b.pixels.length ≤ i) :
    b.set_pixel i red green blue = b ∧
    b.set_pixel_rgbb i red green blue x = b ∧
    b.set_pixel_brightness i x = b := by
  refine ⟨?_, ?_, ?_⟩
  · unfold Blinkt.set_pixel
    rw [modifyIdx_ge _ _ _ h]
  · unfold Blinkt.set_pixel_rgbb
    rw [modifyIdx_ge _ _ _ h]
  · unfold Blinkt.set_pixel_brightness
    rw [modifyIdx_ge _ _ _ h]

/-- Claim C6 witness: a two-pixel Blinkt with index 5. -/
theorem claim_c6_witness :
    (Blinkt.with_settings 2).pixels.length ≤ 5 ∧
    ((Blinkt.with_settings 2).set_pixel 5 1 2 3 = Blinkt.with_settings 2 ∧
     (Blinkt.with_settings 2).set_pixel_rgbb 5 1 2 3 0 = Blinkt.with_settings 2 ∧
     (Blinkt.with_settings 2).set_pixel_brightness 5 0 = Blinkt.with_settings 2) :=
  ⟨by decide, claim_c6 (Blinkt.with_settings 2) 5 1 2 3 0 (by decide)⟩

/-- Claim C7: clear_on_drop is true after construction; drop always
completes with no error regardless of the transport's behavior (the show
result is discarded); with the flag set, drop's transport writes are
exactly one show() of the cleared buffer (all RGB bytes zero, brightness
bytes untouched); with the flag cleared, drop performs no transport write. -/
theorem claim_c7 (n : ℕ) (E : Type) (w : List ℕ → Except E Unit) (b : Blinkt) :
    (Blinkt.with_settings n).clear_on_drop = true ∧
    Blinkt.dropRun w b = Except.ok () ∧
    (b.clear_on_drop = true →
      Blinkt.dropTrace b = (Blinkt.clear b).showWrites ∧
      (Blinkt.clear b).pixels = b.pixels.map Pixel.clear ∧
      (Blinkt.clear b).pixels.map Pixel.brightnessByte =
        b.pixels.map Pixel.brightnessByte) ∧
    (b.clear_on_drop = false → Blinkt.dropTrace b = []) := by
  refine ⟨rfl, ?_, ?_, ?_⟩
  · unfold Blinkt.dropRun
    by_cases hf : b.clear_on_drop
    · rw [if_pos hf]
      cases hres : Blinkt.showRun w (Blinkt.clear b) <;> rfl
    · rw [if_neg hf]
  · intro hf
    refine ⟨?_, rfl, ?_⟩
    · unfold Blinkt.dropTrace
      rw [if_pos hf]
    · exact map_brightness_set_rgb 0 0 0 b.pixels
  · intro hf
    unfold Blinkt.dropTrace
    rw [if_neg (by simp [hf])]

/-- Claim C7 witness: a one-pixel Blinkt, dropped with the flag set (writes
equal one show() of the cleared buffer) and with the flag cleared (no
writes), against a transport that always fails (drop still returns ok). -/
theorem claim_c7_witness :
    (Blinkt.dropTrace (Blinkt.with_settings 1) =
        (Blinkt.clear (Blinkt.with_settings 1)).showWrites ∧
      (Blinkt.clear (Blinkt.with_settings 1)).pixels =
        (Blinkt.with_settings 1).pixels.map Pixel.clear ∧
      (Blinkt.clear (Blinkt.with_settings 1)).pixels.map Pixel.brightnessByte =
        (Blinkt.with_settings 1).pixels.map Pixel.brightnessByte) ∧
    Blinkt.dropTrace ((Blinkt.with_settings 1).set_clear_on_drop false) = [] ∧
    Blinkt.dropRun (fun _ => Except.error ()) (Blinkt.with_settings 1) =
      Except.ok () :=
  ⟨(claim_c7 1 Unit (fun _ => Except.error ()) (Blinkt.with_settings 1)).2.2.1 rfl,
   (claim_c7 1 Unit (fun _ => Except.error ())
     ((Blinkt.with_settings 1).set_clear_on_drop false)).2.2.2 rfl,
   (claim_c7 1 Unit (fun _ => Except.error ()) (Blinkt.with_settings 1)).2.1⟩

/-- Claim C8: Blinkt::clear (via Pixel::clear on every pixel) zeroes the
red, green and blue bytes of every pixel and leaves every stored
brightness byte exactly unchanged. -/
theorem claim_c8 (b : Blinkt) (p : Pixel) :
    (Pixel.clear p).redByte = 0 ∧ (Pixel.clear p).greenByte = 0 ∧
    (Pixel.clear p).blueByte = 0 ∧
    (Pixel.clear p).brightnessByte = p.brightnessByte ∧
    (Blinkt.clear b).pixels = b.pixels.map Pixel.clear ∧
    (Blinkt.clear b).pixels.map Pixel.brightnessByte =
      b.pixels.map Pixel.brightnessByte ∧
    ∀ q ∈ (Blinkt.clear b).pixels,
      q.redByte = 0 ∧ q.greenByte = 0 ∧ q.blueByte = 0 := by
  refine ⟨rfl, rfl, rfl, rfl, rfl, map_brightness_set_rgb 0 0 0 b.pixels, ?_⟩
  intro q hq
  unfold Blinkt.clear Blinkt.set_all_pixels at hq
  simp only [List.mem_map] at hq
  obtain ⟨p', _, rfl⟩ := hq
  exact ⟨rfl, rfl, rfl⟩

/-- Claim C9: the GPIO bit-bang transport transmits the bytes in order,
each byte MSB-first, each bit as: set the data pin to the bit value, raise
the clock pin, lower it (the code tests `byte & (1 << (7 - n))` for n in
0..8, which is exactly bit 7-n). -/
theorem claim_c9 (data : List ℕ) : gpioWriteTrace data = specBitstream data := by
  have hfun : bitbangByte = fun byte =>
      (List.range 8).flatMap fun n =>
        [PinOp.dataPin (byte.testBit (7 - n)), PinOp.clockPin true,
         PinOp.clockPin false] := by
    funext byte
    unfold bitbangByte
    congr 1
    funext n
    rw [and_pow_pos_eq_testBit]
  unfold gpioWriteTrace specBitstream
  rw [hfun]

/-- Claim C10: the GPIO transport's write always returns Ok(()) (the pin
operations are infallible and the function ends with `Ok(())`), so show()
through a GPIO-backed Blinkt always returns Ok(()). -/
theorem claim_c10 (data : List ℕ) (b : Blinkt) :
    (gpioWrite data).2 = Except.ok () ∧
    Blinkt.showRun (fun d => (gpioWrite d).2) b = Except.ok () :=
  ⟨rfl, runWrites_ok _ (fun _ => rfl) _⟩

/-- Claim C1 (amended): for every pixel count n below 2^24, the
constructed Blinkt precomputes an all-zero end frame of exactly
4 + ceil(n/16) bytes, and one show() hands the transport exactly
4 + 4n + (4 + ceil(n/16)) bytes: the 4-zero-byte start frame, 4 bytes per
pixel in sequence order, then the end frame; for n = 0 the full byte
stream is exactly 8 zero bytes.  (The bound n < 2^24 is needed: the code
computes the end-frame length through f32 arithmetic, which first deviates
from ceil(n/16) at n = 2^24.) -/
theorem claim_c1_amended (n : ℕ) (h : n < 2 ^ 24) :
    (Blinkt.with_settings n).end_frame = List.replicate (4 + (n + 15) / 16) 0 ∧
    totalBytes (Blinkt.with_settings n).showWrites = 4 + 4 * n + (4 + (n + 15) / 16) ∧
    (Blinkt.with_settings 0).showWrites.flatten = List.replicate 8 0 := by
  refine ⟨?_, ?_, by decide⟩
  · show List.replicate (4 + endFrameCount n) 0 = _
    rw [endFrameCount_eq h]
  · show totalBytes ([List.replicate 4 0] ++
      (List.replicate n Pixel.default).map Pixel.bytes ++
      [List.replicate (4 + endFrameCount n) 0]) = _
    unfold totalBytes
    rw [endFrameCount_eq h]
    simp only [List.map_append, List.sum_append, List.map_map, List.map_replicate,
      List.length_replicate, List.map_cons, List.map_nil, List.sum_cons,
      List.sum_nil, Function.comp, List.sum_replicate, smul_eq_mul]
    have hlen : (Pixel.bytes Pixel.default).length = 4 := rfl
    rw [hlen]
    omega

/-- Claim C1 witness at the 8-pixel default board: a 5-byte end frame and
45 bytes in total. -/
theorem claim_c1_witness :
    8 < 2 ^ 24 ∧
    ((Blinkt.with_settings 8).end_frame = List.replicate (4 + (8 + 15) / 16) 0 ∧
     totalBytes (Blinkt.with_settings 8).showWrites = 4 + 4 * 8 + (4 + (8 + 15) / 16) ∧
     (Blinkt.with_settings 0).showWrites.flatten = List.replicate 8 0) :=
  ⟨by norm_num, claim_c1_amended 8 (by norm_num)⟩

/-- Claim C1 counterexample: at n = 2^24 the code's f32-computed end frame
has 4 + 1048577 bytes, while the claim's 4 + ceil(n/16) is 4 + 1048576. -/
theorem claim_c1_counterexample :
    (Blinkt.with_settings (2 ^ 24)).end_frame.length = 4 + 1048577 ∧
    4 + (2 ^ 24 + 15) / 16 = 4 + 1048576 ∧
    (4 : ℕ) + 1048577 ≠ 4 + 1048576 := by
  refine ⟨?_, by norm_num, by norm_num⟩
  show (List.replicate (4 + endFrameCount (2 ^ 24)) 0).length = 4 + 1048577
  rw [List.length_replicate]
  decide

end BlinktModel
